import Mathlib

/-!
Shallow embedding of `src/utils/tuner.py` (hyperparameter search utilities
for ARIMA / XGBoost / GARCH models) and verification of its specification.

Conventions of the embedding:
* Python floats that appear as model diagnostics (AIC, BIC, coefficient
  standard errors) are modelled as rationals `ℚ`; the claims under
  verification only concern orderings of finitely many such scores.
* A Python exception is modelled as `Except PyError` / an `Option PyError`
  component; the particular exception classes that the source can raise are
  the constructors of `PyError`.
* The external statsmodels ARIMA library is modelled as a fit oracle
  `ArimaLib`: a function from an order `(p, q, d)` and a training series to
  the scalar diagnostics of the fitted model.  The claims quantify over
  runs in which every fit succeeds, which is exactly what a total oracle
  expresses.
* Constructor calls to the external estimator classes are recorded as data
  (`ARIMAEstimatorCall`), since the source treats them as black boxes.
-/

deriving instance DecidableEq for Except

namespace Tuner

/-- An ARIMA order `(p, q, d)`: the configuration tuples enumerated by the
grid search in `ARIMATuner.grid_search`. -/
abbrev Cfg := ℤ × ℤ × ℤ

/-- The Python exceptions relevant to this unit.
`typeError` models `TypeError` (raised by `None < float('inf')`, and by a
call with a wrong number of arguments); `indexError` models the lookup
failure of `bse[1]` on a short coefficient vector; `notImplementedError`
models `raise NotImplementedError`. -/
inductive PyError where
  | typeError
  | indexError
  | notImplementedError
  deriving Repr, DecidableEq

/-- The scalar diagnostics of a fitted ARIMA model that the tuner reads:
`model_fit.aic`, `model_fit.bic` and the coefficient standard errors
`model_fit.bse` (a sequence indexed from 0). -/
structure FittedARIMA where
  aic : ℚ
  bic : ℚ
  bse : List ℚ
  deriving Repr, DecidableEq

/-- The external ARIMA library (`ARIMA(train, order=cfg).fit()`), modelled
as a fit oracle over training series of type `σ`.  Totality of `fit`
expresses the hypothesis, present in the claims, that every fit succeeds. -/
structure ArimaLib (σ : Type) where
  fit : Cfg → σ → FittedARIMA

/-- Embedding of `ARIMATuner._aic_arima_model`: construct `ARIMA(train, order=(p,q,d))`,
fit it, return `model_fit.aic`. -/
def _aic_arima_model {σ : Type} (m : ArimaLib σ) (p q d : ℤ) (train : σ) : ℚ :=
  (m.fit (p, q, d) train).aic

/-- Embedding of `ARIMATuner._bic_arima_model`: construct `ARIMA(train, order=(p,q,d))`,
fit it, return `model_fit.bic`. -/
def _bic_arima_model {σ : Type} (m : ArimaLib σ) (p q d : ℤ) (train : σ) : ℚ :=
  (m.fit (p, q, d) train).bic

/-- Embedding of `ARIMATuner._bse_arima_model`: construct `ARIMA(train, order=(p,q,d))`,
fit it, return `model_fit.bse[1]` — the standard error of the second fitted
coefficient.  The lookup raises when the fitted model has fewer than two
coefficients. -/
def _bse_arima_model {σ : Type} (m : ArimaLib σ) (p q d : ℤ) (train : σ) :
    Except PyError ℚ :=
  match ((m.fit (p, q, d) train).bse).get? 1 with
  | some v => Except.ok v
  | none => Except.error PyError.indexError

/-- The `param_space` argument of `ARIMATuner.grid_search`: a mapping with
the three keys `'p'`, `'q'`, `'d'`, each bound to a list of integers. -/
structure ParamSpace where
  p : List ℤ
  q : List ℤ
  d : List ℤ
  deriving Repr, DecidableEq

/-- The triple-nested enumeration order of the source
(`for p in p_values: for q in q_values: for d in d_values:`):
`p` outermost, `q` middle, `d` innermost. -/
def cartesianPQD (ps : ParamSpace) : List Cfg :=
  ps.p.flatMap fun p => ps.q.flatMap fun q => ps.d.map fun d => (p, q, d)

/-- Either `float('inf')` or a finite float: the type of `best_score` in
`grid_search`, which is initialised to `float('inf')`. -/
inductive PyNum where
  | inf : PyNum
  | val : ℚ → PyNum
  deriving Repr, DecidableEq

/-- The comparison `score < best_score` of the source.  `score` is
`None`-able (`Option ℚ`); comparing `None` against a float raises
`TypeError`, exactly as in Python 3. -/
def pyLt : Option ℚ → PyNum → Except PyError Bool
  | none, _ => Except.error PyError.typeError
  | some _, PyNum.inf => Except.ok true
  | some v, PyNum.val b => Except.ok (decide (v < b))

/-- A record of a constructor call `ARIMAEstimator(train, order=best_cfg)`.
The estimator class lives outside this unit; the call itself is the
observable behaviour. -/
structure ARIMAEstimatorCall (σ : Type) where
  series : σ
  order : Option Cfg
  deriving Repr, DecidableEq

/-- The mutable local state of the `grid_search` loop: `best_score`
(initially `float('inf')`), `score` (initially `None`), `best_cfg`
(initially `None`); plus two ghost fields that record the observable
side effects: `fits`, the configurations on which an ARIMA model has been
constructed and fitted so far, and `log`, the progress lines written to
standard output (method, score, configuration). -/
structure GridState where
  best_score : PyNum
  score : Option ℚ
  best_cfg : Option Cfg
  fits : List Cfg
  log : List (String × Option ℚ × Cfg)

/-- The initial loop state of `grid_search`. -/
def initGridState : GridState :=
  { best_score := PyNum.inf, score := none, best_cfg := none, fits := [], log := [] }

/-- One iteration of the innermost loop body of `grid_search` at
configuration `cfg`: dispatch on `method` to a scorer (an unknown method
leaves `score` unchanged — the source has no `else` branch), print the
progress line, then compare `score < best_score` and update on strict
improvement.  Returns the raised exception, if any, together with the
state reached. -/
def gridStep {σ : Type} (m : ArimaLib σ) (method : String) (train : σ)
    (st : GridState) (cfg : Cfg) : Option PyError × GridState :=
  let sres : Except PyError (Option ℚ) :=
    if method = "aic" then Except.ok (some (_aic_arima_model m cfg.1 cfg.2.1 cfg.2.2 train))
    else if method = "bic" then Except.ok (some (_bic_arima_model m cfg.1 cfg.2.1 cfg.2.2 train))
    else if method = "bse" then
      match _bse_arima_model m cfg.1 cfg.2.1 cfg.2.2 train with
      | Except.ok v => Except.ok (some v)
      | Except.error e => Except.error e
    else Except.ok st.score
  let fits' : List Cfg :=
    if method = "aic" ∨ method = "bic" ∨ method = "bse" then st.fits ++ [cfg] else st.fits
  match sres with
  | Except.error e => (some e, { st with fits := fits' })
  | Except.ok s =>
    let st' : GridState := { st with score := s, fits := fits', log := st.log ++ [(method, s, cfg)] }
    match pyLt s st.best_score with
    | Except.error e => (some e, st')
    | Except.ok true =>
        (none, { st' with
                  best_score := match s with
                    | some v => PyNum.val v
                    | none => st.best_score,  -- unreachable: `pyLt none _` raises
                  best_cfg := some cfg })
    | Except.ok false => (none, st')

/-- The grid-search loop over the enumerated configurations.  An exception
raised by an iteration aborts the remaining iterations, as in Python. -/
def gridSearchAux {σ : Type} (m : ArimaLib σ) (method : String) (train : σ) :
    List Cfg → GridState → Option PyError × GridState
  | [], st => (none, st)
  | cfg :: rest, st =>
    match gridStep m method train st cfg with
    | (some e, st') => (some e, st')
    | (none, st') => gridSearchAux m method train rest st'

/-- Embedding of `ARIMATuner.grid_search`: enumerate the Cartesian product of
`param_space['p'] × param_space['q'] × param_space['d']` (p outermost, q
middle, d innermost), score each combination by `method`, keep the best
strictly-improving configuration, and finally return
`(best_cfg, ARIMAEstimator(train, order=best_cfg))`. -/
def grid_search {σ : Type} (m : ArimaLib σ) (ps : ParamSpace) (method : String)
    (train : σ) : Except PyError (Option Cfg × ARIMAEstimatorCall σ) :=
  match gridSearchAux m method train (cartesianPQD ps) initGridState with
  | (some e, _) => Except.error e
  | (none, st) => Except.ok (st.best_cfg, { series := train, order := st.best_cfg })

/-- The configurations on which `grid_search` constructs and fits an ARIMA
model before it returns or raises (read off the ghost `fits` field). -/
def gridFits {σ : Type} (m : ArimaLib σ) (ps : ParamSpace) (method : String)
    (train : σ) : List Cfg :=
  (gridSearchAux m method train (cartesianPQD ps) initGridState).2.fits

/-- The score that `grid_search` assigns to one configuration under a given
method: the dispatch of the `if method == 'aic' / 'bic' / 'bse'` chain,
extracted as a function for stating the optimality claims. -/
def methodScore {σ : Type} (m : ArimaLib σ) (method : String) (train : σ)
    (cfg : Cfg) : Except PyError ℚ :=
  if method = "aic" then Except.ok (_aic_arima_model m cfg.1 cfg.2.1 cfg.2.2 train)
  else if method = "bic" then Except.ok (_bic_arima_model m cfg.1 cfg.2.1 cfg.2.2 train)
  else if method = "bse" then _bse_arima_model m cfg.1 cfg.2.1 cfg.2.2 train
  else Except.error PyError.typeError

/-- The comparison `score < best_score` once `score` holds an actual float:
`true` against `float('inf')`, the strict order on values otherwise. -/
def pyNumLt (v : ℚ) : PyNum → Bool
  | PyNum.inf => true
  | PyNum.val b => decide (v < b)

/-- The pure content of the grid-search loop, keeping only
`(best_score, best_cfg)`, for a run in which every configuration scores
successfully to `f`. -/
def pureLoop (f : Cfg → ℚ) : List Cfg → PyNum × Option Cfg → PyNum × Option Cfg
  | [], acc => acc
  | c :: rest, acc =>
    if pyNumLt (f c) acc.1 then pureLoop f rest (PyNum.val (f c), some c)
    else pureLoop f rest acc

/-- Specification-side reference function: the first element of the list
attaining the minimal score under `f` (the earliest wins ties). -/
def firstMin (f : Cfg → ℚ) : List Cfg → Option Cfg
  | [] => none
  | c :: rest =>
    match firstMin f rest with
    | none => some c
    | some c' => if f c' < f c then some c' else some c

/-- The state reached by one valid-method iteration that scored `v`. -/
def stepState (st : GridState) (method : String) (cfg : Cfg) (v : ℚ) : GridState :=
  if pyNumLt v st.best_score then
    { best_score := PyNum.val v, score := some v, best_cfg := some cfg,
      fits := st.fits ++ [cfg], log := st.log ++ [(method, some v, cfg)] }
  else
    { st with score := some v,
              fits := st.fits ++ [cfg],
              log := st.log ++ [(method, some v, cfg)] }

/-- A record of a constructor call `GARCHEstimator(series, p=..., q=...)`.
It only occurs in dead code of the source: the lines after
`raise NotImplementedError` in `GARCHTuner.grid_search`. -/
structure GARCHEstimatorCall (σ : Type) where
  series : σ
  p : Option ℤ
  q : Option ℤ

/-- Embedding of `GARCHTuner.grid_search(self, p_values, q_values)`: its first statement
is `raise NotImplementedError`, so the dead estimator-building code below
it never runs, whatever the arguments are. -/
def GARCHTuner_grid_search {σ α β : Type} (self : σ) (p_values : α)
    (q_values : β) : Except PyError (GARCHEstimatorCall σ) :=
  Except.error PyError.notImplementedError

/-- Calling convention of `HyperparameterTuner.__init__(self)`: it declares no parameter besides
`self`; a call passing `nargs` extra positional arguments raises
`TypeError` unless `nargs = 0`, per the Python calling convention. -/
def HyperparameterTuner_init (nargs : ℕ) : Except PyError Unit :=
  if nargs = 0 then Except.ok () else Except.error PyError.typeError

/-- Embedding of `GARCHTuner.__init__(self, df, target)`: its body is
`super().__init__(df, target)`, forwarding two positional arguments to
`HyperparameterTuner.__init__`. -/
def GARCHTuner_init {α β : Type} (df : α) (target : β) : Except PyError Unit :=
  match HyperparameterTuner_init 2 with
  | Except.ok u => Except.ok u
  | Except.error e => Except.error e

/-- A search-space dimension of the external optimisation library:
`Integer(lo, hi)` or `Real(lo, hi)`. -/
inductive SpaceDim where
  | integerDim : ℤ → ℤ → SpaceDim
  | realDim : ℚ → ℚ → SpaceDim
  deriving Repr, DecidableEq

/-- The estimator argument handed to the search controller. -/
inductive Regressor where
  | xgbRegressor
  deriving Repr, DecidableEq

/-- The observable state of a `BayesSearchCV` controller: its constructor
arguments, the number of cross-validation folds it will use, and the data
it has been fitted on (`none` before `.fit` is called). -/
structure BayesSearchCV (σ τ : Type) where
  estimator : Regressor
  search_spaces : List (String × SpaceDim)
  n_iter : ℕ
  verbose : ℕ
  cv_folds : ℕ
  fitted : Option (σ × τ)

/-- The external `BayesSearchCV` performs 5-fold cross-validation when no
`cv` argument is passed, which is how the source constructs it (its
docstring records k = 5). -/
def bayesDefaultCvFolds : ℕ := 5

/-- Embedding of `XGBTuner.bayesian_optimisation`: build the fixed hyperparameter space,
construct `BayesSearchCV(XGBRegressor(), param_space, n_iter=50,
verbose=10)`, fit it on `(X, y)` and return the fitted optimiser. -/
def bayesian_optimisation {σ τ : Type} (X : σ) (y : τ) : BayesSearchCV σ τ :=
  let param_space : List (String × SpaceDim) :=
    [("n_estimators", SpaceDim.integerDim 100 1000),
     ("max_depth", SpaceDim.integerDim 3 13),
     ("learning_rate", SpaceDim.realDim (1/100) 1),
     ("gamma", SpaceDim.realDim 0 5),
     ("subsample", SpaceDim.realDim (1/2) 1)]
  let optimiser : BayesSearchCV σ τ :=
    { estimator := Regressor.xgbRegressor, search_spaces := param_space,
      n_iter := 50, verbose := 10, cv_folds := bayesDefaultCvFolds,
      fitted := none }
  let optimiser' : BayesSearchCV σ τ := { optimiser with fitted := some (X, y) }
  optimiser'

/-- The caller-owned arguments of `ARIMATuner.grid_search`, threaded
through the call explicitly so that the frame condition — the call does
not mutate them — is a statement rather than a typing convention. -/
structure GridSearchEnv (σ : Type) where
  param_space : ParamSpace
  train : σ

/-- The `grid_search` loop with the environment threaded through every
iteration; each iteration reads `train` from the environment it receives
and passes the environment on. -/
def gridSearchAuxEnv {σ : Type} (m : ArimaLib σ) (method : String) :
    List Cfg → GridState → GridSearchEnv σ →
      (Option PyError × GridState) × GridSearchEnv σ
  | [], st, env => ((none, st), env)
  | cfg :: rest, st, env =>
    match gridStep m method env.train st cfg with
    | (some e, st') => ((some e, st'), env)
    | (none, st') => gridSearchAuxEnv m method rest st' env

/-- Embedding of `ARIMATuner.grid_search` reading `param_space` and `train` from the
threaded environment and handing the environment back as the call leaves
it. -/
def grid_search_env {σ : Type} (m : ArimaLib σ) (method : String)
    (env : GridSearchEnv σ) :
    Except PyError (Option Cfg × ARIMAEstimatorCall σ) × GridSearchEnv σ :=
  match gridSearchAuxEnv m method (cartesianPQD env.param_space) initGridState env with
  | ((some e, _), env') => (Except.error e, env')
  | ((none, st), env') =>
    (Except.ok (st.best_cfg, { series := env'.train, order := st.best_cfg }), env')

/-- A concrete fit oracle over a trivial series type, used to evaluate the
theorems on explicit inputs: AIC is `p`, BIC is constant, and there
are exactly two coefficient standard errors. -/
def sampleLib : ArimaLib Unit :=
  { fit := fun cfg _ => { aic := (cfg.1 : ℚ), bic := 7, bse := [1, 2] } }

/-- The AIC score of `sampleLib` as a plain function. -/
def sampleAic (cfg : Cfg) : ℚ := (cfg.1 : ℚ)

/-- A concrete parameter space with two candidate orders. -/
def sampleSpace : ParamSpace := { p := [1, 2], q := [1], d := [0] }


lemma pyLt_some (v : ℚ) (b : PyNum) : pyLt (some v) b = Except.ok (pyNumLt v b) := by
  cases b <;> rfl

lemma firstMin_eq_none {f : Cfg → ℚ} {l : List Cfg} :
    firstMin f l = none ↔ l = [] := by
  cases l with
  | nil => simp [firstMin]
  | cons c rest =>
    simp only [firstMin]
    cases firstMin f rest with
    | none => simp
    | some c' =>
      constructor
      · intro h
        by_cases hlt : f c' < f c <;> simp [hlt] at h
      · intro h
        exact absurd h (List.cons_ne_nil c rest)

lemma firstMin_mem {f : Cfg → ℚ} {l : List Cfg} {c : Cfg}
    (h : firstMin f l = some c) : c ∈ l := by
  induction l with
  | nil => simp [firstMin] at h
  | cons y t ih =>
    simp only [firstMin] at h
    cases ht : firstMin f t with
    | none => rw [ht] at h; simp at h; simp [h]
    | some c' =>
      rw [ht] at h
      by_cases hlt : f c' < f y
      · simp [hlt] at h
        subst h
        exact List.mem_cons_of_mem y (ih ht)
      · simp [hlt] at h
        simp [h]

lemma firstMin_le {f : Cfg → ℚ} : ∀ {l : List Cfg} {c : Cfg},
    firstMin f l = some c → ∀ x ∈ l, f c ≤ f x := by
  intro l
  induction l with
  | nil => intro c h; simp [firstMin] at h
  | cons y t ih =>
    intro c h
    simp only [firstMin] at h
    cases ht : firstMin f t with
    | none =>
      rw [ht] at h; simp at h; subst h
      intro x hx
      rcases List.mem_cons.1 hx with hxy | hxt
      · rw [hxy]
      · rw [firstMin_eq_none.1 ht] at hxt; simp at hxt
    | some c' =>
      rw [ht] at h
      by_cases hlt : f c' < f y
      · simp [hlt] at h; subst h
        intro x hx
        rcases List.mem_cons.1 hx with hxy | hxt
        · rw [hxy]; exact le_of_lt hlt
        · exact ih ht x hxt
      · simp [hlt] at h; subst h
        intro x hx
        rcases List.mem_cons.1 hx with hxy | hxt
        · rw [hxy]
        · exact le_trans (le_of_not_lt hlt) (ih ht x hxt)

lemma firstMin_first {f : Cfg → ℚ} {l : List Cfg} {c : Cfg}
    (h : firstMin f l = some c) :
    ∃ l1 l2, l = l1 ++ c :: l2 ∧ ∀ x ∈ l1, f c < f x := by
  induction l with
  | nil => simp [firstMin] at h
  | cons y t ih =>
    simp only [firstMin] at h
    cases ht : firstMin f t with
    | none =>
      rw [ht] at h; simp at h; subst h
      exact ⟨[], t, rfl, by simp⟩
    | some c' =>
      rw [ht] at h
      by_cases hlt : f c' < f y
      · simp [hlt] at h
        subst h
        obtain ⟨l1, l2, hsplit, hgt⟩ := ih ht
        refine ⟨y :: l1, l2, by rw [hsplit]; rfl, ?_⟩
        intro x hx
        rcases List.mem_cons.1 hx with hxy | hx1
        · subst hxy; exact hlt
        · exact hgt x hx1
      · simp [hlt] at h
        subst h
        exact ⟨[], t, rfl, by simp⟩


lemma pureLoop_step (f : Cfg → ℚ) (y : Cfg) (t : List Cfg) (s : ℚ) (c : Cfg) :
    pureLoop f (y :: t) (PyNum.val s, some c) =
      if f y < s then pureLoop f t (PyNum.val (f y), some y)
      else pureLoop f t (PyNum.val s, some c) := by
  simp [pureLoop, pyNumLt]

lemma pureLoop_val_some (f : Cfg → ℚ) : ∀ {l : List Cfg} {c' : Cfg} (s : ℚ) (c : Cfg),
    firstMin f l = some c' →
    pureLoop f l (PyNum.val s, some c) =
      if f c' < s then (PyNum.val (f c'), some c') else (PyNum.val s, some c) := by
  intro l
  induction l with
  | nil => intro c' s c h; simp [firstMin] at h
  | cons y t ih =>
    intro c' s c h
    simp only [firstMin] at h
    rw [pureLoop_step]
    cases ht : firstMin f t with
    | none =>
      have htnil : t = [] := firstMin_eq_none.1 ht
      rw [ht] at h; simp at h; subst h
      subst htnil
      by_cases h1 : f y < s <;> simp [pureLoop, h1]
    | some c0 =>
      rw [ht] at h
      by_cases h2 : f c0 < f y
      · simp [h2] at h; subst h
        by_cases h1 : f y < s
        · rw [if_pos h1, ih (f y) y ht, if_pos h2, if_pos (lt_trans h2 h1)]
        · rw [if_neg h1, ih s c ht]
      · simp [h2] at h; subst h
        by_cases h1 : f y < s
        · rw [if_pos h1, ih (f y) y ht, if_neg h2, if_pos h1]
        · rw [if_neg h1, ih s c ht,
            if_neg (not_lt.2 (le_trans (not_lt.1 h1) (not_lt.1 h2))), if_neg h1]

lemma pureLoop_inf_some (f : Cfg → ℚ) : ∀ {l : List Cfg} {c' : Cfg},
    firstMin f l = some c' →
    pureLoop f l (PyNum.inf, none) = (PyNum.val (f c'), some c') := by
  intro l
  cases l with
  | nil => intro c' h; simp [firstMin] at h
  | cons y t =>
    intro c' h
    simp only [firstMin] at h
    have hstep : pureLoop f (y :: t) (PyNum.inf, none) =
        pureLoop f t (PyNum.val (f y), some y) := by
      simp [pureLoop, pyNumLt]
    rw [hstep]
    cases ht : firstMin f t with
    | none =>
      have htnil : t = [] := firstMin_eq_none.1 ht
      rw [ht] at h; simp at h; subst h
      subst htnil
      rfl
    | some c0 =>
      rw [ht] at h
      rw [pureLoop_val_some f (f y) y ht]
      by_cases h2 : f c0 < f y
      · simp [h2] at h; subst h; rw [if_pos h2]
      · simp [h2] at h; subst h; rw [if_neg h2]


lemma gridStep_valid {σ : Type} (m : ArimaLib σ) (method : String) (train : σ)
    (st : GridState) (cfg : Cfg) (v : ℚ)
    (hm : method = "aic" ∨ method = "bic" ∨ method = "bse")
    (hv : methodScore m method train cfg = Except.ok v) :
    gridStep m method train st cfg = (none, stepState st method cfg v) := by
  rcases hm with hm | hm | hm <;> subst hm
  · simp only [methodScore, reduceIte] at hv
    have hv' : _aic_arima_model m cfg.1 cfg.2.1 cfg.2.2 train = v := Except.ok.inj hv
    cases hb : pyNumLt v st.best_score <;>
      simp [gridStep, stepState, hv', pyLt_some, hb]
  · simp only [methodScore, reduceIte] at hv
    have hv' : _bic_arima_model m cfg.1 cfg.2.1 cfg.2.2 train = v :=
      Except.ok.inj ((if_neg (by decide)).symm.trans hv)
    cases hb : pyNumLt v st.best_score <;>
      simp [gridStep, stepState, hv', pyLt_some, hb]
  · have hv' : _bse_arima_model m cfg.1 cfg.2.1 cfg.2.2 train = Except.ok v := by
      have h1 : methodScore m "bse" train cfg =
          _bse_arima_model m cfg.1 cfg.2.1 cfg.2.2 train := by
        simp [methodScore]
      rw [h1] at hv
      exact hv
    cases hb : pyNumLt v st.best_score <;>
      simp [gridStep, stepState, hv', pyLt_some, hb]


lemma gridSearchAux_valid {σ : Type} (m : ArimaLib σ) (method : String) (train : σ)
    (f : Cfg → ℚ) (hm : method = "aic" ∨ method = "bic" ∨ method = "bse") :
    ∀ (l : List Cfg) (st : GridState),
      (∀ cfg ∈ l, methodScore m method train cfg = Except.ok (f cfg)) →
      (gridSearchAux m method train l st).1 = none ∧
      ((gridSearchAux m method train l st).2.best_score,
        (gridSearchAux m method train l st).2.best_cfg) =
        pureLoop f l (st.best_score, st.best_cfg) := by
  intro l
  induction l with
  | nil => intro st h; exact ⟨rfl, rfl⟩
  | cons cfg rest ih =>
    intro st h
    have hstep := gridStep_valid m method train st cfg (f cfg) hm (h cfg (by simp))
    have hrest : ∀ c ∈ rest, methodScore m method train c = Except.ok (f c) :=
      fun c hc => h c (List.mem_cons_of_mem cfg hc)
    have haux : gridSearchAux m method train (cfg :: rest) st =
        gridSearchAux m method train rest (stepState st method cfg (f cfg)) := by
      simp only [gridSearchAux, hstep]
    rw [haux]
    have hpure : pureLoop f (cfg :: rest) (st.best_score, st.best_cfg) =
        pureLoop f rest ((stepState st method cfg (f cfg)).best_score,
          (stepState st method cfg (f cfg)).best_cfg) := by
      simp only [pureLoop, stepState]
      cases hb : pyNumLt (f cfg) st.best_score <;> simp [hb]
    rw [hpure]
    exact ih (stepState st method cfg (f cfg)) hrest


lemma mem_cartesianPQD {ps : ParamSpace} {x : Cfg} :
    x ∈ cartesianPQD ps ↔ x.1 ∈ ps.p ∧ x.2.1 ∈ ps.q ∧ x.2.2 ∈ ps.d := by
  obtain ⟨p, q, d⟩ := x
  constructor
  · intro h
    simp only [cartesianPQD, List.mem_flatMap, List.mem_map] at h
    obtain ⟨a, ha, b, hb, c, hc, heq⟩ := h
    obtain ⟨h1, h2, h3⟩ : a = p ∧ b = q ∧ c = d := by
      simpa using heq
    subst h1; subst h2; subst h3
    exact ⟨ha, hb, hc⟩
  · rintro ⟨hp, hq, hd⟩
    simp only [cartesianPQD, List.mem_flatMap, List.mem_map]
    exact ⟨p, hp, q, hq, d, hd, rfl⟩

lemma cartesianPQD_ne_nil {ps : ParamSpace}
    (hp : ps.p ≠ []) (hq : ps.q ≠ []) (hd : ps.d ≠ []) :
    cartesianPQD ps ≠ [] := by
  obtain ⟨a, ta, ha⟩ := List.exists_cons_of_ne_nil hp
  obtain ⟨b, tb, hb⟩ := List.exists_cons_of_ne_nil hq
  obtain ⟨c, tc, hc⟩ := List.exists_cons_of_ne_nil hd
  have hmem : ((a, b, c) : Cfg) ∈ cartesianPQD ps :=
    mem_cartesianPQD.2 ⟨by rw [ha]; simp, by rw [hb]; simp, by rw [hc]; simp⟩
  exact List.ne_nil_of_mem hmem

lemma grid_search_valid_firstMin {σ : Type} (m : ArimaLib σ) (ps : ParamSpace)
    (method : String) (train : σ) (f : Cfg → ℚ) (c : Cfg)
    (hm : method = "aic" ∨ method = "bic" ∨ method = "bse")
    (hf : ∀ cfg ∈ cartesianPQD ps, methodScore m method train cfg = Except.ok (f cfg))
    (hc : firstMin f (cartesianPQD ps) = some c) :
    grid_search m ps method train =
      Except.ok (some c, { series := train, order := some c }) := by
  obtain ⟨h1, h2⟩ :=
    gridSearchAux_valid m method train f hm (cartesianPQD ps) initGridState hf
  have hinit : (initGridState.best_score, initGridState.best_cfg) =
      (PyNum.inf, (none : Option Cfg)) := rfl
  rw [hinit, pureLoop_inf_some f hc] at h2
  have hbc : (gridSearchAux m method train (cartesianPQD ps) initGridState).2.best_cfg =
      some c := (Prod.mk.injEq .. ▸ h2).2
  have hr : gridSearchAux m method train (cartesianPQD ps) initGridState =
      (none, (gridSearchAux m method train (cartesianPQD ps) initGridState).2) := by
    rw [← h1]
  simp only [grid_search]
  rw [hr]
  simp [hbc]


lemma gridSearchAuxEnv_eq {σ : Type} (m : ArimaLib σ) (method : String)
    (env : GridSearchEnv σ) : ∀ (l : List Cfg) (st : GridState),
    gridSearchAuxEnv m method l st env =
      (gridSearchAux m method env.train l st, env) := by
  intro l
  induction l with
  | nil => intro st; rfl
  | cons cfg rest ih =>
    intro st
    simp only [gridSearchAuxEnv, gridSearchAux]
    cases gridStep m method env.train st cfg with
    | mk e st' =>
      cases e with
      | none => simp only []; exact ih st'
      | some e => rfl

/-- Claim C1: for every `param_space` whose `p`, `q`, `d` entries are
non-empty sequences of non-negative integers, every
`method ∈ {aic, bic, bse}` and every training series on which every scored
fit succeeds, `ARIMATuner.grid_search` returns a configuration that is an
element of the Cartesian product `p × q × d` whose score under the chosen
method is ≤ the score of every other combination in the product. -/
theorem grid_search_exhaustive_optimal {σ : Type} (m : ArimaLib σ)
    (ps : ParamSpace) (method : String) (train : σ) (f : Cfg → ℚ)
    (hp : ps.p ≠ []) (hq : ps.q ≠ []) (hd : ps.d ≠ [])
    (hpn : ∀ x ∈ ps.p, 0 ≤ x) (hqn : ∀ x ∈ ps.q, 0 ≤ x) (hdn : ∀ x ∈ ps.d, 0 ≤ x)
    (hm : method = "aic" ∨ method = "bic" ∨ method = "bse")
    (hf : ∀ cfg ∈ cartesianPQD ps, methodScore m method train cfg = Except.ok (f cfg)) :
    ∃ best est, grid_search m ps method train = Except.ok (some best, est) ∧
      best ∈ cartesianPQD ps ∧
      ∀ cfg ∈ cartesianPQD ps, f best ≤ f cfg := by
  have hne := cartesianPQD_ne_nil hp hq hd
  obtain ⟨c, hc⟩ : ∃ c, firstMin f (cartesianPQD ps) = some c := by
    cases h : firstMin f (cartesianPQD ps) with
    | none => exact absurd (firstMin_eq_none.1 h) hne
    | some c => exact ⟨c, rfl⟩
  exact ⟨c, _, grid_search_valid_firstMin m ps method train f c hm hf hc,
    firstMin_mem hc, firstMin_le hc⟩

theorem grid_search_exhaustive_optimal_witness :
    (sampleSpace.p ≠ [] ∧ sampleSpace.q ≠ [] ∧ sampleSpace.d ≠ []) ∧
    (∃ best est, grid_search sampleLib sampleSpace "aic" () = Except.ok (some best, est) ∧
      best ∈ cartesianPQD sampleSpace ∧
      ∀ cfg ∈ cartesianPQD sampleSpace, sampleAic best ≤ sampleAic cfg) :=
  ⟨by decide,
   grid_search_exhaustive_optimal sampleLib sampleSpace "aic" () sampleAic
     (by decide) (by decide) (by decide) (by decide) (by decide) (by decide)
     (Or.inl rfl) (by decide)⟩


/-- Claim C2: when several configurations tie for the minimal score, the
one enumerated first in the nested iteration order (`p` outermost, `q`
middle, `d` innermost — the order of `cartesianPQD`) is returned: the
returned configuration is optimal and every configuration enumerated
before it scores strictly worse, because `best_cfg` is only replaced on a
strict improvement of the score. -/
theorem grid_search_tie_break {σ : Type} (m : ArimaLib σ)
    (ps : ParamSpace) (method : String) (train : σ) (f : Cfg → ℚ)
    (hp : ps.p ≠ []) (hq : ps.q ≠ []) (hd : ps.d ≠ [])
    (hm : method = "aic" ∨ method = "bic" ∨ method = "bse")
    (hf : ∀ cfg ∈ cartesianPQD ps, methodScore m method train cfg = Except.ok (f cfg)) :
    ∃ best est l1 l2, grid_search m ps method train = Except.ok (some best, est) ∧
      cartesianPQD ps = l1 ++ best :: l2 ∧
      (∀ cfg ∈ cartesianPQD ps, f best ≤ f cfg) ∧
      (∀ cfg ∈ l1, f best < f cfg) := by
  have hne := cartesianPQD_ne_nil hp hq hd
  obtain ⟨c, hc⟩ : ∃ c, firstMin f (cartesianPQD ps) = some c := by
    cases h : firstMin f (cartesianPQD ps) with
    | none => exact absurd (firstMin_eq_none.1 h) hne
    | some c => exact ⟨c, rfl⟩
  obtain ⟨l1, l2, hsplit, hstrict⟩ := firstMin_first hc
  exact ⟨c, _, l1, l2, grid_search_valid_firstMin m ps method train f c hm hf hc,
    hsplit, firstMin_le hc, hstrict⟩

theorem grid_search_tie_break_witness :
    (sampleSpace.p ≠ [] ∧ sampleSpace.q ≠ [] ∧ sampleSpace.d ≠ []) ∧
    (∃ best est l1 l2,
      grid_search sampleLib sampleSpace "bic" () = Except.ok (some best, est) ∧
      cartesianPQD sampleSpace = l1 ++ best :: l2 ∧
      (∀ cfg ∈ cartesianPQD sampleSpace, (7 : ℚ) ≤ 7) ∧
      (∀ cfg ∈ l1, (7 : ℚ) < 7)) :=
  ⟨by decide,
   grid_search_tie_break sampleLib sampleSpace "bic" () (fun _ => 7)
     (by decide) (by decide) (by decide) (Or.inr (Or.inl rfl)) (by decide)⟩

/-- Claim C3, code behaviour: a `method` outside `{aic, bic, bse}` does not
raise an explicit early `InvalidMethodError`; the dispatch leaves
`score = None`, one progress line is printed, and the first comparison
`None < best_score` raises `TypeError` — before any ARIMA model is
fitted. -/
theorem grid_search_unknown_method_typeerror {σ : Type} (m : ArimaLib σ)
    (ps : ParamSpace) (method : String) (train : σ)
    (hm : method ≠ "aic" ∧ method ≠ "bic" ∧ method ≠ "bse")
    (hne : cartesianPQD ps ≠ []) :
    grid_search m ps method train = Except.error PyError.typeError ∧
    gridFits m ps method train = [] := by
  obtain ⟨cfg, rest, hl⟩ := List.exists_cons_of_ne_nil hne
  have hstep : gridStep m method train initGridState cfg =
      (some PyError.typeError,
        { initGridState with log := [(method, none, cfg)] }) := by
    simp [gridStep, hm.1, hm.2.1, hm.2.2, pyLt, initGridState]
  constructor
  · simp only [grid_search, hl, gridSearchAux, hstep]
  · simp only [gridFits, hl, gridSearchAux, hstep]
    rfl

theorem grid_search_unknown_method_typeerror_witness :
    (("unsupported" ≠ "aic" ∧ "unsupported" ≠ "bic" ∧ "unsupported" ≠ "bse") ∧
      cartesianPQD sampleSpace ≠ []) ∧
    (grid_search sampleLib sampleSpace "unsupported" () = Except.error PyError.typeError ∧
      gridFits sampleLib sampleSpace "unsupported" () = []) :=
  ⟨⟨by decide, by decide⟩,
   grid_search_unknown_method_typeerror sampleLib sampleSpace "unsupported" ()
     (by decide) (by decide)⟩

/-- Claim C4, code behaviour: with an empty `p` list (so an empty Cartesian
product) the loop body never runs, no error is raised, and `grid_search`
silently returns `best_cfg = None` paired with
`ARIMAEstimator(train, order=None)` — it does not fail fast. -/
theorem grid_search_empty_p_returns_none {σ : Type} (m : ArimaLib σ)
    (ps : ParamSpace) (method : String) (train : σ) (hp : ps.p = []) :
    grid_search m ps method train =
      Except.ok (none, { series := train, order := none }) := by
  have hprod : cartesianPQD ps = [] := by simp [cartesianPQD, hp]
  simp [grid_search, hprod, gridSearchAux, initGridState]

theorem grid_search_empty_p_returns_none_witness :
    (ParamSpace.mk [] [1] [0]).p = [] ∧
    grid_search sampleLib (ParamSpace.mk [] [1] [0]) "aic" () =
      Except.ok (none, { series := (), order := none }) :=
  ⟨rfl, grid_search_empty_p_returns_none sampleLib (ParamSpace.mk [] [1] [0]) "aic" () rfl⟩

/-- Claim C5: `GARCHTuner.grid_search` fails immediately with
`NotImplementedError` on every input; no computation is attempted, since
the raise is the first statement of the body. -/
theorem garch_grid_search_unimplemented {σ α β : Type} (self : σ)
    (p_values : α) (q_values : β) :
    GARCHTuner_grid_search self p_values q_values =
      Except.error PyError.notImplementedError := rfl

/-- Claim C6: on every valid completed search, `grid_search` returns the
pair of the best configuration and an `ARIMAEstimator` constructed with
exactly that order over the same training series that was passed in. -/
theorem grid_search_returns_best_estimator {σ : Type} (m : ArimaLib σ)
    (ps : ParamSpace) (method : String) (train : σ) (f : Cfg → ℚ)
    (hp : ps.p ≠ []) (hq : ps.q ≠ []) (hd : ps.d ≠ [])
    (hm : method = "aic" ∨ method = "bic" ∨ method = "bse")
    (hf : ∀ cfg ∈ cartesianPQD ps, methodScore m method train cfg = Except.ok (f cfg)) :
    ∃ best, grid_search m ps method train =
        Except.ok (some best, { series := train, order := some best }) ∧
      best ∈ cartesianPQD ps ∧
      ∀ cfg ∈ cartesianPQD ps, f best ≤ f cfg := by
  have hne := cartesianPQD_ne_nil hp hq hd
  obtain ⟨c, hc⟩ : ∃ c, firstMin f (cartesianPQD ps) = some c := by
    cases h : firstMin f (cartesianPQD ps) with
    | none => exact absurd (firstMin_eq_none.1 h) hne
    | some c => exact ⟨c, rfl⟩
  exact ⟨c, grid_search_valid_firstMin m ps method train f c hm hf hc,
    firstMin_mem hc, firstMin_le hc⟩

theorem grid_search_returns_best_estimator_witness :
    (sampleSpace.p ≠ [] ∧ sampleSpace.q ≠ [] ∧ sampleSpace.d ≠ []) ∧
    (∃ best, grid_search sampleLib sampleSpace "bse" () =
        Except.ok (some best, { series := (), order := some best }) ∧
      best ∈ cartesianPQD sampleSpace ∧
      ∀ cfg ∈ cartesianPQD sampleSpace, (2 : ℚ) ≤ 2) :=
  ⟨by decide,
   grid_search_returns_best_estimator sampleLib sampleSpace "bse" () (fun _ => 2)
     (by decide) (by decide) (by decide) (Or.inr (Or.inr rfl)) (by decide)⟩


/-- Claim C7: each private scorer fits one fresh ARIMA(p,q,d) model on the
given series and returns exactly one scalar diagnostic of that fit — the
AIC scorer returns `.aic`, the BIC scorer returns `.bic`, and the BSE
scorer returns `bse[1]`, the standard error of the second fitted
coefficient, which presupposes at least two coefficients and raises an
index lookup error otherwise. -/
theorem scorers_return_fit_diagnostics {σ : Type} (m : ArimaLib σ)
    (p q d : ℤ) (train : σ) :
    _aic_arima_model m p q d train = (m.fit (p, q, d) train).aic ∧
    _bic_arima_model m p q d train = (m.fit (p, q, d) train).bic ∧
    (∀ h : 2 ≤ ((m.fit (p, q, d) train).bse).length,
      _bse_arima_model m p q d train =
        Except.ok (((m.fit (p, q, d) train).bse).get ⟨1, h⟩)) ∧
    (((m.fit (p, q, d) train).bse).length < 2 →
      _bse_arima_model m p q d train = Except.error PyError.indexError) := by
  refine ⟨rfl, rfl, ?_, ?_⟩
  · intro h
    have h1 : ((m.fit (p, q, d) train).bse)[1]? =
        some (((m.fit (p, q, d) train).bse).get ⟨1, h⟩) := by
      rw [List.getElem?_eq_getElem h]
      simp [List.get_eq_getElem]
    simp [_bse_arima_model, h1]
  · intro h
    have h1 : ((m.fit (p, q, d) train).bse)[1]? = none :=
      List.getElem?_eq_none (by omega)
    simp [_bse_arima_model, h1]

theorem scorers_return_fit_diagnostics_witness :
    (2 ≤ ((sampleLib.fit (1, 1, 0) ()).bse).length) ∧
    _aic_arima_model sampleLib 1 1 0 () = (sampleLib.fit (1, 1, 0) ()).aic ∧
    _bse_arima_model sampleLib 1 1 0 () =
      Except.ok (((sampleLib.fit (1, 1, 0) ()).bse).get ⟨1, by decide⟩) :=
  ⟨by decide,
   (scorers_return_fit_diagnostics sampleLib 1 1 0 ()).1,
   (scorers_return_fit_diagnostics sampleLib 1 1 0 ()).2.2.1 (by decide)⟩

/-- Claim C8: `XGBTuner.bayesian_optimisation` builds the fixed search
space (`n_estimators` integer in [100, 1000], `max_depth` integer in
[3, 13], `learning_rate` real in [0.01, 1.0], `gamma` real in [0, 5.0],
`subsample` real in [0.5, 1]), runs the Bayesian search for 50 iterations
with the library-default 5-fold cross-validation over an XGB regressor,
and returns the controller fitted on exactly the given data. -/
theorem bayesian_optimisation_spec {σ τ : Type} (X : σ) (y : τ) :
    (bayesian_optimisation X y).search_spaces =
      [("n_estimators", SpaceDim.integerDim 100 1000),
       ("max_depth", SpaceDim.integerDim 3 13),
       ("learning_rate", SpaceDim.realDim (1/100) 1),
       ("gamma", SpaceDim.realDim 0 5),
       ("subsample", SpaceDim.realDim (1/2) 1)] ∧
    (bayesian_optimisation X y).n_iter = 50 ∧
    (bayesian_optimisation X y).cv_folds = 5 ∧
    (bayesian_optimisation X y).estimator = Regressor.xgbRegressor ∧
    (bayesian_optimisation X y).fitted = some (X, y) :=
  ⟨rfl, rfl, rfl, rfl, rfl⟩

/-- Claim C9: `ARIMATuner.grid_search` does not mutate its arguments: with
the caller-owned `param_space` and `train` threaded through the whole
call, the environment comes back unchanged (the loop state is fresh per
call, and the only other effect is the console log recorded in the ghost
state), and the result is the same as the direct function. -/
theorem grid_search_frame {σ : Type} (m : ArimaLib σ) (method : String)
    (env : GridSearchEnv σ) :
    (grid_search_env m method env).2 = env ∧
    (grid_search_env m method env).1 = grid_search m env.param_space method env.train := by
  have h := gridSearchAuxEnv_eq m method env (cartesianPQD env.param_space) initGridState
  constructor
  · simp only [grid_search_env, h]
    cases haux : gridSearchAux m method env.train (cartesianPQD env.param_space) initGridState with
    | mk e st => cases e <;> rfl
  · simp only [grid_search_env, grid_search, h]
    cases haux : gridSearchAux m method env.train (cartesianPQD env.param_space) initGridState with
    | mk e st => cases e <;> rfl

/-- Claim C10: constructing a `GARCHTuner` always fails:
`GARCHTuner.__init__(df, target)` forwards two positional arguments to
`HyperparameterTuner.__init__`, which accepts none, so every
instantiation raises `TypeError` before `grid_search` could ever be
invoked on an instance built by this constructor. -/
theorem garch_init_always_typeerror {α β : Type} (df : α) (target : β) :
    GARCHTuner_init df target = Except.error PyError.typeError := rfl

end Tuner
